import Mathlib

/-!
Verification of the image-dedup / slideshow-layout pipeline of `app.py`
(a Flask app generating marketing videos).  The definitions below are a
shallow embedding of the pipeline pieces:

* the dedup loop of `generate_confirmation_route` (content hash, perceptual
  hash, minimum-size check, state updates),
* the canvas selection, image placement, frame timing and caption
  segmentation logic of `generate_slideshow_video`.

Python floats are modelled as rationals (`ℚ`), sha256 digests as `Nat`,
perceptual hashes as bit lists; `Image.open` failures are modelled as
`Option` inputs.
-/

/-! ## Deduplication (generate_confirmation_route, lines 1190-1284) -/

/-- `PHASH_THRESHOLD = 5` from app.py line 63. -/
def PHASH_THRESHOLD : Nat := 5

/-- `min_dimension = 400` from app.py line 1238. -/
def min_dimension : Nat := 400

/-- A downloaded image as returned by `download_image`: its sha256 content
hash, its perceptual hash when `imagehash.phash` succeeded (`None`
otherwise), and its pixel dimensions when the saved file can be reopened
for the size check (`None` models an `Image.open` failure there). -/
structure DownloadedImage where
  contentHash : Nat
  pHash : Option (List Bool)
  dims : Option (Nat × Nat)
  deriving DecidableEq

/-- Hamming distance between perceptual hashes: the number of differing
bits (imagehash implements `h1 - h2` as `count_nonzero(h1.hash != h2.hash)`). -/
def hammingDistance (a b : List Bool) : Nat :=
  (List.zipWith (fun x y => x != y) a b).count true

/-- The inner loop of app.py lines 1218-1224: the image is a visual
duplicate when some previously accepted perceptual hash is within
`PHASH_THRESHOLD` Hamming distance. -/
def isVisualDuplicate (p : List Bool) (seen : List (List Bool)) : Bool :=
  seen.any fun q => hammingDistance p q ≤ PHASH_THRESHOLD

/-- The size check of app.py lines 1234-1254: fails when either dimension
is below `min_dimension`, and also when the saved file cannot be reopened. -/
def sizeOk (img : DownloadedImage) : Bool :=
  match img.dims with
  | some (w, h) => !(w < min_dimension || h < min_dimension)
  | none => false

/-- Outcomes of the dedup decision logic (spec section 4.1). -/
inductive Decision where
  | accept
  | rejectExactDuplicate
  | rejectVisualDuplicate
  | rejectTooSmall
  deriving DecidableEq

/-- The decision logic of app.py lines 1206-1258 for one downloaded image:
exact content-hash check first (line 1212), then the visual check (lines
1216-1228, skipped when no perceptual hash was computed), then the size
check (lines 1232-1255). -/
def evaluate (img : DownloadedImage) (seenContentHashes : List Nat)
    (seenPHashes : List (List Bool)) : Decision :=
  if img.contentHash ∈ seenContentHashes then
    .rejectExactDuplicate
  else if (match img.pHash with
           | some p => isVisualDuplicate p seenPHashes
           | none => false) then
    .rejectVisualDuplicate
  else if sizeOk img then
    .accept
  else
    .rejectTooSmall

/-- One step of the dedup loop with its state updates (app.py lines
1258-1261): only on acceptance is the content hash added, and the
perceptual hash appended when present.  Rejected images change nothing. -/
def dedupStep (st : List Nat × List (List Bool)) (img : DownloadedImage) :
    (List Nat × List (List Bool)) × Decision :=
  match evaluate img st.1 st.2 with
  | .accept =>
      ((img.contentHash :: st.1,
        match img.pHash with
        | some p => st.2 ++ [p]
        | none => st.2), .accept)
  | d => (st, d)

/-! ## Canvas selection (generate_slideshow_video, lines 878-901) -/

/-- A target canvas (frame) size. -/
structure Canvas where
  width : Nat
  height : Nat
  deriving DecidableEq

/-- The images that `Image.open` could open (app.py lines 881-891):
`none` models an unopenable file. -/
def decodedDims (imgs : List (Option (Nat × Nat))) : List (Nat × Nat) :=
  imgs.filterMap id

/-- The images passing the `w > 0 and h > 0` validation of app.py line 885
(`valid_image_paths`). -/
def validDims (imgs : List (Option (Nat × Nat))) : List (Nat × Nat) :=
  (decodedDims imgs).filter fun d => 0 < d.1 && 0 < d.2

/-- The `aspect_ratios` list of app.py line 886: `w / h` per valid image. -/
def aspectRatios (imgs : List (Option (Nat × Nat))) : List ℚ :=
  (validDims imgs).map fun d => (d.1 : ℚ) / (d.2 : ℚ)

/-- The `avg_aspect` of app.py line 897: arithmetic mean of the ratios. -/
def meanAspect (imgs : List (Option (Nat × Nat))) : ℚ :=
  (aspectRatios imgs).sum / ((aspectRatios imgs).length : ℚ)

/-- Canvas selection, app.py lines 893-901: default landscape 1920x1080
when no valid image, otherwise portrait below mean 0.8, landscape above
1.2, square in between. -/
def chooseCanvas (imgs : List (Option (Nat × Nat))) : Canvas :=
  if aspectRatios imgs = [] then ⟨1920, 1080⟩
  else if meanAspect imgs < 4/5 then ⟨1080, 1920⟩
  else if 6/5 < meanAspect imgs then ⟨1920, 1080⟩
  else ⟨1440, 1440⟩

/-! ## Image placement (generate_slideshow_video, lines 943-975) -/

/-- The result of placing one source image on the canvas: the canvas
dimensions, the paste position of the resized image and its size.  Pixels
outside the pasted rectangle hold the black `padding_color`. -/
structure Placed where
  canvasW : Nat
  canvasH : Nat
  imgX : Nat
  imgY : Nat
  imgW : Nat
  imgH : Nat
  deriving DecidableEq

/-- Placement logic of app.py lines 943-975: when the aspect ratios are
within 0.01 the image is resized to exactly the canvas; otherwise a black
canvas-sized background is created and the image, resized preserving
aspect (`int` truncation modelled by `Nat.floor`, values nonnegative), is
pasted centered: a wider image fits the canvas width and is padded
vertically, a taller one fits the canvas height and is padded
horizontally. -/
def placeOnCanvas (iw ih W H : Nat) : Placed :=
  let imgAspect : ℚ := (iw : ℚ) / (ih : ℚ)
  let targetAspect : ℚ := (W : ℚ) / (H : ℚ)
  if |imgAspect - targetAspect| < 1/100 then
    ⟨W, H, 0, 0, W, H⟩
  else if targetAspect < imgAspect then
    let nh := ⌊(W : ℚ) / imgAspect⌋₊
    ⟨W, H, 0, (H - nh) / 2, W, nh⟩
  else
    let nw := ⌊(H : ℚ) * imgAspect⌋₊
    ⟨W, H, (W - nw) / 2, 0, nw, H⟩

/-- The placed bitmap is covered by image pixels at every canvas position:
no padding border anywhere. -/
def coversCanvas (p : Placed) : Prop :=
  ∀ x y : Nat, x < p.canvasW → y < p.canvasH →
    p.imgX ≤ x ∧ x < p.imgX + p.imgW ∧ p.imgY ≤ y ∧ y < p.imgY + p.imgH

/-! ## Caption segmentation (generate_slideshow_video, lines 1012-1075) -/

/-- A word-level timestamp from the transcription service. -/
structure WordTiming where
  word : String
  start : ℚ
  endTime : ℚ
  deriving DecidableEq

/-- A caption segment: joined text, start time and end time (the clip
duration in app.py line 1033 is `endTime - start`). -/
structure CaptionSegment where
  text : String
  start : ℚ
  endTime : ℚ
  deriving DecidableEq

/-- The caption loop of app.py lines 1016-1075, with `segWords` the
accumulated `segment_words` and `segStart` the `segment_start_time`: each
word is appended, then the segment is closed — including that word and
using its end time — once the word count reaches `maxWords`, or the
duration since `segStart` reaches `maxDur`, or the word is the last. -/
def segmentLoop (maxWords : Nat) (maxDur : ℚ) :
    List WordTiming → List String → ℚ → List CaptionSegment
  | [], _, _ => []
  | w :: rest, segWords, segStart =>
      let segStart := if segWords.isEmpty then w.start else segStart
      let segWords := segWords ++ [w.word]
      let currentDuration := w.endTime - segStart
      if maxWords ≤ segWords.length ∨ maxDur ≤ currentDuration ∨ rest.isEmpty then
        ⟨String.intercalate " " segWords, segStart, w.endTime⟩ ::
          segmentLoop maxWords maxDur rest [] segStart
      else
        segmentLoop maxWords maxDur rest segWords segStart

/-- Caption segmentation entry point (initial empty segment state,
app.py lines 1012-1014). -/
def segmentCaptions (words : List WordTiming) (maxWords : Nat) (maxDur : ℚ) :
    List CaptionSegment :=
  segmentLoop maxWords maxDur words [] 0

/-- The word timings of the end-to-end scenario of the spec. -/
def scenarioWords : List WordTiming :=
  [⟨"Hello", 0, 2/5⟩, ⟨"world", 2/5, 9/10⟩, ⟨"this", 9/10, 13/10⟩,
   ⟨"rocks", 13/10, 3⟩]

/-! ## Frame timing and slideshow assembly (lines 905-1007) -/

/-- One timed image frame of the slideshow. -/
structure Frame where
  start : ℚ
  duration : ℚ
  deriving DecidableEq

/-- The frame-timing loop of app.py lines 933-994, by remaining image
count: each frame ends at `min (start + base) total` except the last,
which ends at exactly `total`; frames of nonpositive duration are skipped
without advancing the clock (the `continue` of line 939). -/
def buildFrames (base total : ℚ) : Nat → ℚ → List Frame
  | 0, _ => []
  | k + 1, current =>
      let endT := if k = 0 then total else min (current + base) total
      if endT - current ≤ 0 then buildFrames base total k current
      else ⟨current, endT - current⟩ :: buildFrames base total k endT

/-- Frame timings for `n` valid images over `total` seconds, with
`base_image_duration = total / n` (app.py line 928). -/
def slideshowFrames (total : ℚ) (n : Nat) : List Frame :=
  buildFrames (total / (n : ℚ)) total n 0

/-- The outputs of a successful `generate_slideshow_video` run that the
claims are about: chosen canvas, frame timeline, caption segments. -/
structure SlideshowResult where
  canvas : Canvas
  frames : List Frame
  captions : List CaptionSegment
  deriving DecidableEq

/-- The `generate_slideshow_video` pipeline of app.py lines 839-1102,
modelling image files as `Option` dimensions and the audio collaborator as
an optional pair of audio duration and word timestamps (empty list when
`get_word_timestamps` returned nothing).  With audio the total duration is
the audio duration; without audio it is `3 * len(image_paths)` (line 922,
counting all supplied paths).  Fails when no valid image exists (line 927)
or no clip could be built (line 996); captions are only built when word
timestamps are present (line 1006). -/
def generate_slideshow_video (imagePaths : List (Option (Nat × Nat)))
    (audio : Option (ℚ × List WordTiming)) : Except String SlideshowResult :=
  let total : ℚ := match audio with
    | some (d, _) => d
    | none => 3 * (imagePaths.length : ℚ)
  let words : List WordTiming := match audio with
    | some (_, ws) => ws
    | none => []
  let n := (validDims imagePaths).length
  if n = 0 then .error "No valid images provided for slideshow."
  else
    let frames := slideshowFrames total n
    if frames.isEmpty then .error "No valid image clips could be created."
    else
      .ok ⟨chooseCanvas imagePaths, frames,
           if words.isEmpty then [] else segmentCaptions words 4 (5/2)⟩

/-! ## Theorems -/

/-- C3: for every image and every canvas, the bitmap produced by the
placement step has width and height exactly equal to the canvas dimensions
W×H, in all branches. -/
theorem placeOnCanvas_canvas_dims (iw ih W H : Nat) :
    (placeOnCanvas iw ih W H).canvasW = W ∧ (placeOnCanvas iw ih W H).canvasH = H := by
  simp only [placeOnCanvas]
  split_ifs <;> exact ⟨rfl, rfl⟩

/-- C4: canvas selection is a total function of the batch's aspect ratios:
no valid image gives landscape 1920×1080; otherwise mean < 0.8 gives
portrait 1080×1920, mean > 1.2 gives landscape 1920×1080, and every other
mean gives square 1440×1440. -/
theorem chooseCanvas_total_function (imgs : List (Option (Nat × Nat))) :
    (validDims imgs = [] → chooseCanvas imgs = ⟨1920, 1080⟩) ∧
    (validDims imgs ≠ [] → meanAspect imgs < 4/5 → chooseCanvas imgs = ⟨1080, 1920⟩) ∧
    (validDims imgs ≠ [] → 6/5 < meanAspect imgs → chooseCanvas imgs = ⟨1920, 1080⟩) ∧
    (validDims imgs ≠ [] → 4/5 ≤ meanAspect imgs → meanAspect imgs ≤ 6/5 →
      chooseCanvas imgs = ⟨1440, 1440⟩) := by
  have hiff : aspectRatios imgs = [] ↔ validDims imgs = [] := by
    simp [aspectRatios]
  unfold chooseCanvas
  split_ifs with h1 h2 h3
  · exact ⟨fun _ => rfl, fun hne _ => absurd (hiff.mp h1) hne,
      fun hne _ => absurd (hiff.mp h1) hne, fun hne _ _ => absurd (hiff.mp h1) hne⟩
  · exact ⟨fun he => absurd (hiff.mpr he) h1, fun _ _ => rfl,
      fun _ h => absurd h (by linarith), fun _ h _ => absurd h2 (by linarith)⟩
  · exact ⟨fun he => absurd (hiff.mpr he) h1, fun _ hlt => absurd hlt (by linarith),
      fun _ _ => rfl, fun _ _ hle => absurd h3 (by linarith)⟩
  · exact ⟨fun he => absurd (hiff.mpr he) h1, fun _ hlt => absurd hlt h2,
      fun _ hgt => absurd hgt h3, fun _ _ _ => rfl⟩

/-- C4 witness: the four branches at concrete batches. -/
theorem chooseCanvas_total_function_witness :
    chooseCanvas [] = ⟨1920, 1080⟩ ∧ chooseCanvas [some (1, 2)] = ⟨1080, 1920⟩ ∧
    chooseCanvas [some (2, 1)] = ⟨1920, 1080⟩ ∧ chooseCanvas [some (1, 1)] = ⟨1440, 1440⟩ := by
  refine ⟨(chooseCanvas_total_function []).1 rfl,
    (chooseCanvas_total_function [some (1, 2)]).2.1 (by simp [validDims, decodedDims]) ?_,
    (chooseCanvas_total_function [some (2, 1)]).2.2.1 (by simp [validDims, decodedDims]) ?_,
    (chooseCanvas_total_function [some (1, 1)]).2.2.2 (by simp [validDims, decodedDims]) ?_ ?_⟩ <;>
  norm_num [meanAspect, aspectRatios, validDims, decodedDims, List.filterMap_cons,
    List.filter_cons]

/-- C5: an image whose content hash is already among the seen hashes is
rejected as an exact duplicate regardless of its perceptual hash or
dimensions, and nothing is added to the tracking collections. -/
theorem evaluate_exact_duplicate (img : DownloadedImage) (seen : List Nat)
    (ph : List (List Bool)) (h : img.contentHash ∈ seen) :
    evaluate img seen ph = .rejectExactDuplicate ∧
    dedupStep (seen, ph) img = ((seen, ph), .rejectExactDuplicate) := by
  have he : evaluate img seen ph = .rejectExactDuplicate := by
    simp [evaluate, h]
  exact ⟨he, by simp [dedupStep, he]⟩

/-- C5 witness: a tiny no-pHash image whose hash was already accepted. -/
theorem evaluate_exact_duplicate_witness :
    (7 : Nat) ∈ [7] ∧
    evaluate ⟨7, none, some (10, 10)⟩ [7] [] = .rejectExactDuplicate ∧
    dedupStep ([7], []) ⟨7, none, some (10, 10)⟩ = (([7], []), .rejectExactDuplicate) := by
  have h := evaluate_exact_duplicate ⟨7, none, some (10, 10)⟩ [7] [] (by decide)
  exact ⟨by decide, h.1, h.2⟩

/-- C6: an image with a new content hash whose perceptual hash is within
the threshold of some previously accepted perceptual hash is rejected as a
visual duplicate, and nothing is added to the tracking collections. -/
theorem evaluate_visual_duplicate (img : DownloadedImage) (seen : List Nat)
    (ph : List (List Bool)) (p : List Bool) (hnot : img.contentHash ∉ seen)
    (hp : img.pHash = some p) (hq : ∃ q ∈ ph, hammingDistance p q ≤ PHASH_THRESHOLD) :
    evaluate img seen ph = .rejectVisualDuplicate ∧
    dedupStep (seen, ph) img = ((seen, ph), .rejectVisualDuplicate) := by
  have hvis : isVisualDuplicate p ph = true := by
    obtain ⟨q, hmem, hd⟩ := hq
    simp only [isVisualDuplicate, List.any_eq_true, decide_eq_true_eq]
    exact ⟨q, hmem, hd⟩
  have he : evaluate img seen ph = .rejectVisualDuplicate := by
    simp [evaluate, hnot, hp, hvis]
  exact ⟨he, by simp [dedupStep, he]⟩

/-- C6 witness: distinct content hashes, Hamming distance 1 ≤ 5. -/
theorem evaluate_visual_duplicate_witness :
    (3 : Nat) ∉ [9] ∧ hammingDistance [true, false] [true, true] ≤ PHASH_THRESHOLD ∧
    evaluate ⟨3, some [true, false], some (500, 500)⟩ [9] [[true, true]] =
      .rejectVisualDuplicate ∧
    dedupStep ([9], [[true, true]]) ⟨3, some [true, false], some (500, 500)⟩ =
      (([9], [[true, true]]), .rejectVisualDuplicate) := by
  have h := evaluate_visual_duplicate ⟨3, some [true, false], some (500, 500)⟩ [9]
    [[true, true]] [true, false] (by decide) rfl ⟨[true, true], by decide, by decide⟩
  exact ⟨by decide, by decide, h.1, h.2⟩

/-- C10: an image without a perceptual hash skips the visual check — it is
accepted exactly when its content hash is new and the size check passes —
and its processing leaves the perceptual-hash list unchanged, so it can
never cause a later image to be rejected as a visual duplicate. -/
theorem evaluate_no_phash (img : DownloadedImage) (seen : List Nat)
    (ph : List (List Bool)) (hp : img.pHash = none) :
    (evaluate img seen ph = .accept ↔ img.contentHash ∉ seen ∧ sizeOk img = true) ∧
    (dedupStep (seen, ph) img).1.2 = ph ∧
    (∀ p2 : List Bool, isVisualDuplicate p2 (dedupStep (seen, ph) img).1.2 =
      isVisualDuplicate p2 ph) := by
  have he : evaluate img seen ph =
      if img.contentHash ∈ seen then .rejectExactDuplicate
      else if sizeOk img then .accept else .rejectTooSmall := by
    simp [evaluate, hp]
  refine ⟨?_, ?_, ?_⟩
  · rw [he]; split_ifs <;> simp_all
  · rcases hev : evaluate img seen ph <;> simp [dedupStep, hev, hp]
  · intro p2
    rcases hev : evaluate img seen ph <;> simp [dedupStep, hev, hp]

/-- C10 witness: a pHash-less image with a fresh hash and passing size is
accepted and leaves the perceptual-hash list untouched. -/
theorem evaluate_no_phash_witness :
    (⟨4, none, some (500, 500)⟩ : DownloadedImage).pHash = none ∧
    evaluate ⟨4, none, some (500, 500)⟩ [] [[true]] = .accept ∧
    (dedupStep ([], [[true]]) ⟨4, none, some (500, 500)⟩).1.2 = [[true]] ∧
    isVisualDuplicate [true] (dedupStep ([], [[true]]) ⟨4, none, some (500, 500)⟩).1.2 =
      isVisualDuplicate [true] [[true]] := by
  have h := evaluate_no_phash ⟨4, none, some (500, 500)⟩ [] [[true]] rfl
  exact ⟨rfl, h.1.mpr ⟨by decide, by decide⟩, h.2.1, h.2.2 [true]⟩

/-- Closed form of the frame-timing loop: when the clock plus the remaining
frames times the (positive) base duration lands exactly on the total, every
remaining frame gets exactly the base duration. -/
theorem buildFrames_closed_form (base total : ℚ) (hb : 0 < base) :
    ∀ (k : Nat) (c : ℚ), c + (k : ℚ) * base = total →
      buildFrames base total k c =
        (List.range k).map fun i => ⟨c + (i : ℚ) * base, base⟩ := by
  intro k
  induction k with
  | zero => intro c _; simp [buildFrames]
  | succ k ih =>
    intro c hc
    rcases Nat.eq_zero_or_pos k with hk | hk
    · subst hk
      have hdur : total - c = base := by push_cast at hc; linarith
      simp [buildFrames, hdur, not_le.mpr hb, List.range_succ]
    · have hk1 : (1 : ℚ) ≤ (k : ℚ) := by exact_mod_cast hk
      have hle : c + base ≤ total := by push_cast at hc; nlinarith
      have hmin : min (c + base) total = c + base := min_eq_left hle
      have hkne : k ≠ 0 := Nat.pos_iff_ne_zero.mp hk
      have hrec : (c + base) + (k : ℚ) * base = total := by push_cast at hc ⊢; linarith
      have hstep : c + base - c = base := by ring
      simp only [buildFrames, hkne, if_false, hmin, hstep, not_le.mpr hb]
      rw [ih (c + base) hrec, List.range_succ_eq_map]
      simp only [List.map_cons, List.map_map, Nat.cast_zero, zero_mul, add_zero]
      congr 1
      apply List.map_congr_left
      intro i _
      simp only [Function.comp_apply]
      congr 1
      push_cast
      ring

/-- C7: an externally supplied total duration is divided evenly over the
valid images: every frame's duration is totalDuration / imageCount, the
final frame ends exactly at totalDuration, and the durations sum to the
total. -/
theorem slideshowFrames_even_division (total : ℚ) (n : Nat) (hn : 0 < n)
    (ht : 0 < total) :
    (slideshowFrames total n).length = n ∧
    (∀ f ∈ slideshowFrames total n, f.duration = total / (n : ℚ)) ∧
    ((slideshowFrames total n).getLastD ⟨0, 0⟩).start +
      ((slideshowFrames total n).getLastD ⟨0, 0⟩).duration = total ∧
    ((slideshowFrames total n).map Frame.duration).sum = total := by
  have hnq : (0 : ℚ) < (n : ℚ) := by exact_mod_cast hn
  have hn0 : ((n : ℚ)) ≠ 0 := ne_of_gt hnq
  have hb : 0 < total / (n : ℚ) := div_pos ht hnq
  have hc : (0 : ℚ) + (n : ℚ) * (total / (n : ℚ)) = total := by
    rw [zero_add, mul_comm, div_mul_cancel₀ total hn0]
  have hform := buildFrames_closed_form (total / (n : ℚ)) total hb n 0 hc
  refine ⟨?_, ?_, ?_, ?_⟩
  · rw [slideshowFrames, hform]; simp
  · intro f hf
    rw [slideshowFrames, hform] at hf
    obtain ⟨i, _, rfl⟩ := List.mem_map.mp hf
    rfl
  · obtain ⟨m, rfl⟩ := Nat.exists_eq_succ_of_ne_zero hn.ne'
    rw [slideshowFrames, hform, List.range_succ, List.map_append]
    simp only [List.map_cons, List.map_nil, List.getLastD_concat, zero_add]
    have : ((m : ℚ) + 1) * (total / ((m : ℚ) + 1)) = total := by
      push_cast at hc
      linarith
    push_cast
    linarith
  · rw [slideshowFrames, hform, List.map_map]
    have hcomp : (Frame.duration ∘ fun i : Nat =>
        (⟨0 + (i : ℚ) * (total / (n : ℚ)), total / (n : ℚ)⟩ : Frame)) =
        fun _ : Nat => total / (n : ℚ) := rfl
    rw [hcomp, List.map_const', List.sum_replicate, List.length_range,
      nsmul_eq_mul, mul_comm, div_mul_cancel₀ total hn0]

/-- C7 witness: 10 seconds over 4 images gives four 2.5-second frames,
the last ending exactly at 10. -/
theorem slideshowFrames_even_division_witness :
    (slideshowFrames 10 4).length = 4 ∧
    Frame.duration ⟨0, 5/2⟩ = 10 / (4 : ℚ) ∧
    ((slideshowFrames 10 4).getLastD ⟨0, 0⟩).start +
      ((slideshowFrames 10 4).getLastD ⟨0, 0⟩).duration = 10 ∧
    ((slideshowFrames 10 4).map Frame.duration).sum = 10 := by
  have h := slideshowFrames_even_division 10 4 (by norm_num) (by norm_num)
  refine ⟨h.1, h.2.1 ⟨0, 5/2⟩ ?_, h.2.2.1, h.2.2.2⟩
  norm_num [slideshowFrames, buildFrames]

/-- C8 amended: without audio the total is 3 seconds per supplied path, and
when every supplied image is decodable with nonzero dimensions the
assembly succeeds with one 3-second frame per image, summing to
3 × imageCount. -/
theorem generate_slideshow_no_audio (ds : List (Nat × Nat)) (hne : ds ≠ [])
    (hpos : ∀ d ∈ ds, 0 < d.1 ∧ 0 < d.2) (r : SlideshowResult)
    (hr : generate_slideshow_video (ds.map some) none = .ok r) :
    (∀ s, generate_slideshow_video (ds.map some) none ≠ .error s) ∧
    r.frames.length = ds.length ∧
    (∀ f ∈ r.frames, f.duration = 3) ∧
    (r.frames.map Frame.duration).sum = 3 * (ds.length : ℚ) := by
  have hvd : validDims (ds.map some) = ds := by
    rw [validDims, decodedDims, List.filterMap_map,
      show (id ∘ some : (Nat × Nat) → Option (Nat × Nat)) = some from rfl,
      List.filterMap_some]
    exact List.filter_eq_self.mpr fun d hd => by
      have h := hpos d hd
      simp [h.1, h.2]
  have hlen0 : ds.length ≠ 0 := fun h => hne (List.length_eq_zero.mp h)
  have hlq : (0 : ℚ) < (ds.length : ℚ) := by
    exact_mod_cast Nat.pos_of_ne_zero hlen0
  have hbase : 3 * (ds.length : ℚ) / (ds.length : ℚ) = 3 :=
    mul_div_cancel_right₀ 3 (ne_of_gt hlq)
  have hc : (0 : ℚ) + (ds.length : ℚ) * (3 * (ds.length : ℚ) / (ds.length : ℚ)) =
      3 * (ds.length : ℚ) := by rw [hbase]; ring
  have hform := buildFrames_closed_form (3 * (ds.length : ℚ) / (ds.length : ℚ))
    (3 * (ds.length : ℚ)) (by rw [hbase]; norm_num) ds.length 0 hc
  have hfr : slideshowFrames (3 * (ds.length : ℚ)) ds.length =
      (List.range ds.length).map
        (fun i => ⟨0 + (i : ℚ) * (3 * (ds.length : ℚ) / (ds.length : ℚ)),
          3 * (ds.length : ℚ) / (ds.length : ℚ)⟩) := by
    rw [slideshowFrames]; exact hform
  have hfrne : ¬ (slideshowFrames (3 * (ds.length : ℚ)) ds.length).isEmpty = true := by
    rw [hfr]
    simp [List.isEmpty_iff, List.map_eq_nil_iff, List.range_eq_nil]
    exact hne
  have hgen : generate_slideshow_video (ds.map some) none =
      .ok ⟨chooseCanvas (ds.map some), slideshowFrames (3 * (ds.length : ℚ)) ds.length, []⟩ := by
    simp only [generate_slideshow_video, hvd, List.length_map]
    rw [if_neg hlen0, if_neg hfrne]
    rfl
  rw [hgen] at hr
  obtain rfl : r = _ := (Except.ok.inj hr).symm
  refine ⟨fun s hs => by rw [hgen] at hs; exact Except.noConfusion hs, ?_, ?_, ?_⟩
  · simp [hfr]
  · intro f hf
    simp only [hfr] at hf
    obtain ⟨i, _, rfl⟩ := List.mem_map.mp hf
    simpa using hbase
  · simp only [hfr, List.map_map]
    have hcomp : (Frame.duration ∘ fun i : Nat =>
        (⟨0 + (i : ℚ) * (3 * (ds.length : ℚ) / (ds.length : ℚ)),
          3 * (ds.length : ℚ) / (ds.length : ℚ)⟩ : Frame)) =
        fun _ : Nat => 3 * (ds.length : ℚ) / (ds.length : ℚ) := rfl
    rw [hcomp, List.map_const', List.sum_replicate, List.length_range, hbase,
      nsmul_eq_mul, mul_comm]

/-- C8 counterexample: with one decodable and one undecodable image and no
audio, the total is 3 × 2 = 6 seconds but the single frame lasts 6 seconds,
not 3. -/
theorem generate_slideshow_no_audio_counterexample :
    generate_slideshow_video [some (500, 500), none] none =
      .ok ⟨⟨1440, 1440⟩, [⟨0, 6⟩], []⟩ ∧ Frame.duration ⟨0, 6⟩ ≠ 3 := by
  constructor
  · norm_num [generate_slideshow_video, slideshowFrames, buildFrames, validDims,
      decodedDims, chooseCanvas, meanAspect, aspectRatios, List.filterMap_cons,
      List.filter_cons]
  · show (6 : ℚ) ≠ 3
    norm_num

/-- C8 witness: a single valid 500×500 image gets one 3-second frame. -/
theorem generate_slideshow_no_audio_witness :
    generate_slideshow_video [some (500, 500)] none ≠
      .error "No valid images provided for slideshow." ∧
    ([⟨0, 3⟩] : List Frame).length = 1 ∧
    Frame.duration ⟨0, 3⟩ = 3 ∧
    (([⟨0, 3⟩] : List Frame).map Frame.duration).sum = 3 * ((1 : Nat) : ℚ) := by
  have h := generate_slideshow_no_audio [(500, 500)] (by simp) (by norm_num)
    ⟨⟨1440, 1440⟩, [⟨0, 3⟩], []⟩
    (by norm_num [generate_slideshow_video, slideshowFrames, buildFrames, validDims,
      decodedDims, chooseCanvas, meanAspect, aspectRatios, List.filterMap_cons,
      List.filter_cons])
  exact ⟨h.1 _, h.2.1, h.2.2.1 ⟨0, 3⟩ (by simp), h.2.2.2⟩

/-- C9: with an empty word-timing input the result carries no caption
segments, and success or failure of the assembly is unchanged compared to
any other word-timing input. -/
theorem generate_slideshow_empty_words (imgs : List (Option (Nat × Nat))) (d : ℚ)
    (ws : List WordTiming) :
    (∀ r, generate_slideshow_video imgs (some (d, [])) = .ok r → r.captions = []) ∧
    (∀ s, generate_slideshow_video imgs (some (d, [])) = .error s ↔
      generate_slideshow_video imgs (some (d, ws)) = .error s) := by
  simp only [generate_slideshow_video, List.isEmpty_nil, if_true]
  split_ifs with h1 h2 <;>
    refine ⟨fun r h => ?_, fun s => by simp⟩ <;>
    first
      | (obtain rfl : _ = r := Except.ok.inj h; rfl)
      | simp at h

/-- C9 witness: a concrete run with empty word timings succeeds with no
captions, and its success matches the run with a nonempty word list. -/
theorem generate_slideshow_empty_words_witness :
    (⟨⟨1440, 1440⟩, [⟨0, 3⟩], []⟩ : SlideshowResult).captions = [] ∧
    (generate_slideshow_video [some (500, 500)] (some (3, [])) =
        .error "No valid images provided for slideshow." ↔
      generate_slideshow_video [some (500, 500)] (some (3, [⟨"hi", 0, 1⟩])) =
        .error "No valid images provided for slideshow.") := by
  have h := generate_slideshow_empty_words [some (500, 500)] 3 [⟨"hi", 0, 1⟩]
  refine ⟨h.1 ⟨⟨1440, 1440⟩, [⟨0, 3⟩], []⟩ ?_, h.2 _⟩
  norm_num [generate_slideshow_video, slideshowFrames, buildFrames, validDims,
    decodedDims, chooseCanvas, meanAspect, aspectRatios, List.filterMap_cons,
    List.filter_cons]

/-- C2 counterexample: a 3840×1080 image on a 1920×1080 canvas differs in
aspect by 16/9 ≥ 0.01, yet the placed result is the image scaled to the
canvas width and pasted at y = 270 with height 540: rows of black padding
remain, so the canvas is not covered by image pixels. -/
theorem placeOnCanvas_crop_counterexample :
    ¬ |(3840 : ℚ) / 1080 - (1920 : ℚ) / 1080| < 1/100 ∧
    placeOnCanvas 3840 1080 1920 1080 = ⟨1920, 1080, 0, 270, 1920, 540⟩ ∧
    ¬ coversCanvas (placeOnCanvas 3840 1080 1920 1080) := by
  have habs : |(3840 : ℚ) / 1080 - (1920 : ℚ) / 1080| = 16/9 := by
    rw [show (3840 : ℚ) / 1080 - (1920 : ℚ) / 1080 = 16/9 by norm_num]
    rw [abs_of_nonneg (by norm_num : (0 : ℚ) ≤ 16/9)]
  have heq : placeOnCanvas 3840 1080 1920 1080 = ⟨1920, 1080, 0, 270, 1920, 540⟩ := by
    norm_num [placeOnCanvas]
    rw [abs_of_nonneg (by norm_num : (0 : ℚ) ≤ 16/9)]
    norm_num
  refine ⟨by rw [habs]; norm_num, heq, ?_⟩
  rw [heq]
  intro hcov
  obtain ⟨-, -, hy, -⟩ := hcov 0 0 (by norm_num) (by norm_num)
  exact absurd hy (by norm_num)

/-- C2 amended: when the aspect difference is at least 0.01 the placement
pads instead of cropping: a wider-than-canvas image is scaled to the
canvas width and centered vertically over black padding, a taller image is
scaled to the canvas height and centered horizontally. -/
theorem placeOnCanvas_pads (iw ih W H : Nat) (hiw : 0 < iw) (hih : 0 < ih)
    (hW : 0 < W) (hH : 0 < H)
    (hdiff : ¬ |(iw : ℚ) / (ih : ℚ) - (W : ℚ) / (H : ℚ)| < 1/100) :
    ((W : ℚ) / (H : ℚ) < (iw : ℚ) / (ih : ℚ) →
      placeOnCanvas iw ih W H = ⟨W, H, 0, (H - W * ih / iw) / 2, W, W * ih / iw⟩) ∧
    (¬ (W : ℚ) / (H : ℚ) < (iw : ℚ) / (ih : ℚ) →
      placeOnCanvas iw ih W H = ⟨W, H, (W - H * iw / ih) / 2, 0, H * iw / ih, H⟩) := by
  have h1 : ⌊(W : ℚ) / ((iw : ℚ) / (ih : ℚ))⌋₊ = W * ih / iw := by
    rw [div_div_eq_mul_div,
      show (W : ℚ) * (ih : ℚ) = ((W * ih : ℕ) : ℚ) by push_cast; ring,
      Nat.floor_div_nat, Nat.floor_natCast]
  have h2 : ⌊(H : ℚ) * ((iw : ℚ) / (ih : ℚ))⌋₊ = H * iw / ih := by
    rw [← mul_div_assoc,
      show (H : ℚ) * (iw : ℚ) = ((H * iw : ℕ) : ℚ) by push_cast; ring,
      Nat.floor_div_nat, Nat.floor_natCast]
  constructor
  · intro hlt
    simp only [placeOnCanvas]
    rw [if_neg hdiff, if_pos hlt, h1]
  · intro hnlt
    simp only [placeOnCanvas]
    rw [if_neg hdiff, if_neg hnlt, h2]

/-- C2 witness: a tall 1080×3840 image on the 1080×1920 portrait canvas is
scaled to canvas height (540 wide) and centered at x = 270. -/
theorem placeOnCanvas_pads_witness :
    ¬ |(1080 : ℚ) / 3840 - (1080 : ℚ) / 1920| < 1/100 ∧
    placeOnCanvas 1080 3840 1080 1920 = ⟨1080, 1920, 270, 0, 540, 1920⟩ := by
  have hdiff : ¬ |(1080 : ℚ) / 3840 - (1080 : ℚ) / 1920| < 1/100 := by
    rw [show (1080 : ℚ) / 3840 - (1080 : ℚ) / 1920 = -(9/32) by norm_num]
    rw [abs_of_nonpos (by norm_num : (-(9/32) : ℚ) ≤ 0)]
    norm_num
  have h := (placeOnCanvas_pads 1080 3840 1080 1920 (by norm_num) (by norm_num)
    (by norm_num) (by norm_num) hdiff).2 (by norm_num)
  norm_num at h
  exact ⟨hdiff, h⟩

/-- C1 counterexample: on the scenario words with maxWords = 4 and
maxDuration = 2.5 the code emits a single four-word segment, not the two
segments the claim requires. -/
theorem segmentCaptions_scenario_counterexample :
    segmentCaptions scenarioWords 4 (5/2) ≠
      [⟨"Hello world this", 0, 13/10⟩, ⟨"rocks", 13/10, 3⟩] := by
  have heq : segmentCaptions scenarioWords 4 (5/2) =
      [⟨"Hello world this rocks", 0, 3⟩] := by
    norm_num [segmentCaptions, segmentLoop, scenarioWords, String.intercalate,
      String.intercalate.go]
    rfl
  rw [heq]
  intro h
  simp at h

/-- C1 amended: each word is appended and the segment then closes
(including that word, ending at its end time) once the count reaches
maxWords or the duration reaches maxDuration or the word is the last; on
the scenario words the output is the single segment
"Hello world this rocks" spanning [0, 3]. -/
theorem segmentCaptions_scenario_single_segment :
    segmentCaptions scenarioWords 4 (5/2) =
      [⟨"Hello world this rocks", 0, 3⟩] := by
  norm_num [segmentCaptions, segmentLoop, scenarioWords, String.intercalate,
    String.intercalate.go]
  rfl
